import Mathlib

/-
Verification of the ai-toolkit hierarchical tool dispatch engine.

The development shallowly embeds the Go package `toolkit`:
  * `types.go`   — request/response trees, `ToolKitError`, schema generation;
  * `toolkit.go` — `New`, `GetToolkitDescription`, `HandleToolKit`,
                   `processToolKit`, `parseToolKitInput`.

Go maps (`map[string]Parent`, `map[string]Child`) are embedded as association
lists whose list order stands for the map's (unspecified) iteration order;
lookup and insert follow Go map semantics.  Raw JSON payloads
(`json.RawMessage`) are embedded as `String`; the external `encoding/json`
decoder is an explicit parameter (`parse`, and a per-tool `decode`), since the
library is not part of the repository.  Handler results (Go `interface\x7b\x7d`)
are a type parameter `Val`.
-/

namespace AIToolkit

/-- `ToolKitError` (types.go): structured error with machine-readable code and
human-readable message. -/
structure ToolKitError where
  Code : String
  Message : String
deriving DecidableEq, Repr

/-- `NewError` (types.go): build a `ToolKitError` from code and message. -/
def NewError (code message : String) : ToolKitError :=
  { Code := code, Message := message }

/-- `ToolKitChild` (types.go): one requested tool invocation, raw args. -/
structure ToolKitChild where
  name : String
  args : String
deriving DecidableEq, Repr

/-- `ToolKitParent` (types.go): one requested category with its ordered tool list. -/
structure ToolKitParent where
  name : String
  childs : List ToolKitChild
deriving DecidableEq, Repr

/-- `ToolKit` (types.go): the decoded top-level request. -/
structure ToolKit where
  name : String
  parents : List ToolKitParent
deriving DecidableEq, Repr

/-- Content of a `ChildResponse.Response` slot (Go `interface\x7b\x7d`): either the
handler's success value or an embedded `ToolKitError`. -/
inductive ChildResult (Val : Type) where
  | ok : Val → ChildResult Val
  | err : ToolKitError → ChildResult Val
deriving DecidableEq, Repr

/-- `ChildResponse` (types.go). -/
structure ChildResponse (Val : Type) where
  name : String
  response : ChildResult Val
deriving DecidableEq, Repr

/-- `ParentResponse` (types.go). -/
structure ParentResponse (Val : Type) where
  name : String
  childsResponses : List (ChildResponse Val)
deriving DecidableEq, Repr

/-- `ToolKitResponse` (types.go). -/
structure ToolKitResponse (Val : Type) where
  name : String
  responses : List (ParentResponse Val)
deriving DecidableEq, Repr

/-- Go `error` results returned by `HandleToolKit`: either the wrapped
unmarshal error from `parseToolKitInput` or a `ToolKitError` from `NewError`. -/
inductive GoError where
  | parseErr : String → GoError
  | tkErr : ToolKitError → GoError
deriving DecidableEq, Repr

/-- One field of a typed argument struct, as annotated with
`jsonschema:"required,description=..."` tags. -/
structure ArgField where
  name : String
  required : Bool
  description : String
deriving DecidableEq, Repr

/-- The schema document produced by the reflector for an argument struct. -/
structure Schema where
  type : String
  properties : List (String × String)
  required : List String
deriving DecidableEq, Repr

/-- `GenerateSchema` (types.go).  Modelled from the spec: the Go function
delegates to the external `invopop/jsonschema` reflector (not part of the
repository) with `RequiredFromJSONSchemaTags`; per spec §4.4 the document
declares object type, every property name with its description, and as
required exactly the fields annotated required. -/
def GenerateSchema (fields : List ArgField) : Schema :=
  { type := "object"
  , properties := fields.map (fun f => (f.name, f.description))
  , required := (fields.filter (fun f => f.required)).map (fun f => f.name) }

/-- The `Child` interface (types.go): name, description, cached input schema,
and the type-erased `Handle(ctx, rawArgs)` entry point. -/
structure Child (Val : Type) where
  name : String
  description : String
  inputSchema : Schema
  handle : String → Except ToolKitError Val

/-- A typed argument shape: its annotated fields (driving schema generation)
and the external JSON decoder into the typed value `A`. -/
structure ArgShape (A : Type) where
  fields : List ArgField
  decode : String → Except String A

/-- `NewChild` — modelled from the spec: the generic tool builder file is not
under src/ (only its tests are).  Per spec §4.3 and the builder tests:
construction caches the generated schema once; invocation first decodes the
raw args — on decode failure it fails with `invalid_arguments` embedding the
decode diagnostic and the handler is never called — then calls the bound
handler, wrapping a handler failure as `handler_execution_error` carrying the
handler's original message, and returning a success value unmodified. -/
def NewChild {A Val : Type} (name description : String) (shape : ArgShape A)
    (handler : A → Except String Val) : Child Val :=
  { name := name
  , description := description
  , inputSchema := GenerateSchema shape.fields
  , handle := fun raw =>
      match shape.decode raw with
      | Except.error diag =>
          Except.error (NewError "invalid_arguments"
            ("failed to unmarshal args for child " ++ name ++ ": " ++ diag))
      | Except.ok a =>
          match handler a with
          | Except.error msg => Except.error (NewError "handler_execution_error" msg)
          | Except.ok v => Except.ok v }

/-- Go map lookup `m[k]` on the association-list embedding. -/
def mapLookup {α : Type} : List (String × α) → String → Option α
  | [], _ => none
  | (k, v) :: rest, n => if k = n then some v else mapLookup rest n

/-- Go map assignment `m[k] = v`: overwrite in place when the key exists,
otherwise add the binding. -/
def mapInsert {α : Type} : List (String × α) → String → α → List (String × α)
  | [], k, v => [(k, v)]
  | (k₁, v₁) :: rest, k, v =>
      if k₁ = k then (k, v) :: rest else (k₁, v₁) :: mapInsert rest k v

/-- The `Parent` interface (types.go): name, description and the child map
(`GetChildren`); list order stands for the Go map's iteration order. -/
structure Parent (Val : Type) where
  name : String
  description : String
  children : List (String × Child Val)

/-- `NewParent` — modelled from the spec: the builder file is not under src/.
Per spec §3 the category holds a tool-name → Tool mapping with the same
uniqueness/overwrite rule as the toolkit registry. -/
def NewParent {Val : Type} (name description : String) (childs : List (Child Val)) :
    Parent Val :=
  { name := name
  , description := description
  , children := childs.foldl (fun m c => mapInsert m c.name c) [] }

/-- One step of category dispatch — modelled from the spec (§4.2) and the
builder tests: look the tool up by requested name; not found →
`child_not_found` in that slot; found → run it and embed its result or its
wrapped failure, under the requested name. -/
def dispatchChild {Val : Type} (p : Parent Val) (req : ToolKitChild) :
    ChildResponse Val :=
  match mapLookup p.children req.name with
  | none =>
      { name := req.name
      , response := ChildResult.err (NewError "child_not_found"
          ("Child tool \x27" ++ req.name ++ "\x27 not found in parent \x27"
            ++ p.name ++ "\x27")) }
  | some c =>
      match c.handle req.args with
      | Except.ok v => { name := req.name, response := ChildResult.ok v }
      | Except.error e => { name := req.name, response := ChildResult.err e }

/-- `HandleChildren` — modelled from the spec (§4.2): dispatch every requested
tool in request order, isolating each call's failure from its siblings. -/
def HandleChildren {Val : Type} (p : Parent Val) (reqs : List ToolKitChild) :
    ParentResponse Val :=
  { name := p.name, childsResponses := reqs.map (dispatchChild p) }

/-- `Toolkit` (toolkit.go): registry of parents plus the instance name;
list order stands for the Go map's iteration order. -/
structure Toolkit (Val : Type) where
  parents : List (String × Parent Val)
  name : String

/-- `New` (toolkit.go): register the given parents, skipping nil entries
(with a diagnostic) and overwriting on duplicate names. -/
def New {Val : Type} (name : String) (parents : List (Option (Parent Val))) :
    Toolkit Val :=
  { parents := parents.foldl (fun m op =>
      match op with
      | none => m
      | some p => mapInsert m p.name p) []
  , name := name }

/-- `GetToolkitName` (toolkit.go). -/
def GetToolkitName {Val : Type} (t : Toolkit Val) : String :=
  t.name

/-- Body of the `processToolKit` loop (toolkit.go lines 200–217): resolve one
requested parent; not registered → synthetic `_parent_error` slot with
`parent_not_found`; registered → delegate to `HandleChildren`. -/
def processParentReq {Val : Type} (t : Toolkit Val) (pr : ToolKitParent) :
    ParentResponse Val :=
  match mapLookup t.parents pr.name with
  | none =>
      { name := pr.name
      , childsResponses :=
          [{ name := "_parent_error"
           , response := ChildResult.err (NewError "parent_not_found"
               ("Parent toolkit \x27" ++ pr.name ++ "\x27 not registered")) }] }
  | some p => HandleChildren p pr.childs

/-- `processToolKit` (toolkit.go): empty request → `no_toolkit_parents` error
with an otherwise-empty named response; otherwise process every requested
parent in order and return nil error. -/
def processToolKit {Val : Type} (t : Toolkit Val) (req : ToolKit) :
    ToolKitResponse Val × Option GoError :=
  if req.parents.isEmpty then
    ({ name := GetToolkitName t, responses := [] },
     some (GoError.tkErr (NewError "no_toolkit_parents"
       "No toolkit parents specified in the request")))
  else
    ({ name := GetToolkitName t, responses := req.parents.map (processParentReq t) },
     none)

/-- `HandleToolKit` (toolkit.go), with the external JSON decoder passed in as
`parse` (it models `json.Unmarshal` inside `parseToolKitInput`, whose error is
wrapped with the fixed prefix).  Decode failure → degenerate response carrying
`invalid_input_json` plus the wrapped error; success → `processToolKit`. -/
def HandleToolKit {Val : Type} (parse : String → Except String ToolKit)
    (t : Toolkit Val) (input : String) : ToolKitResponse Val × Option GoError :=
  match parse input with
  | Except.error e =>
      ({ name := "toolkit_request_parse_error"
       , responses :=
           [{ name := "_parse_error"
            , childsResponses :=
                [{ name := "_input_error"
                 , response := ChildResult.err (NewError "invalid_input_json"
                     ("error unmarshaling toolkit JSON input: " ++ e)) }] }] },
       some (GoError.parseErr ("error unmarshaling toolkit JSON input: " ++ e)))
  | Except.ok req => processToolKit t req

/-- Concatenate a list of strings (the `strings.Builder` accumulation). -/
def strJoin : List String → String
  | [] => ""
  | s :: rest => s ++ strJoin rest

/-- Comma-separated concatenation, as `json.Marshal` renders collections. -/
def commaSep : List String → String
  | [] => ""
  | [s] => s
  | s :: rest => s ++ "," ++ commaSep rest

/-- JSON string quoting (names in this development need no escaping). -/
def quoteStr (s : String) : String :=
  "\"" ++ s ++ "\""

/-- `json.Marshal` of a cached schema document, as inlined by
`GetToolkitDescription`; marshalling a schema record cannot fail, so the
`schema_error` fallback branch of toolkit.go line 124 is unreachable. -/
def schemaMarshal (s : Schema) : String :=
  "\x7b\"type\":" ++ quoteStr s.type ++ ",\"properties\":\x7b"
    ++ commaSep (s.properties.map (fun p =>
        quoteStr p.1 ++ ":\x7b\"description\":" ++ quoteStr p.2 ++ "\x7d"))
    ++ "\x7d,\"required\":[" ++ commaSep (s.required.map quoteStr) ++ "]\x7d"

/-- The `<child .../>` line emitted for one child (toolkit.go line 130). -/
def childBlock {Val : Type} (c : Child Val) : String :=
  "<child name=" ++ quoteStr c.name ++ " description=" ++ quoteStr c.description
    ++ "><input_schema>" ++ schemaMarshal c.inputSchema ++ "</input_schema></child>\n"

/-- The trailing note emitted after every parent block (toolkit.go line 136). -/
def noteLine : String :=
  "**NOTE**: A child tool cannot be invoked directly, the parent tool must be invoked first via its parent.\n"

/-- The `<parent .../>` line opening a parent's block (toolkit.go line 116). -/
def parentHeaderLine {Val : Type} (p : Parent Val) : String :=
  "<parent name=" ++ quoteStr p.name ++ " description=" ++ quoteStr p.description
    ++ "></parent>\n"

/-- The close tag and note following a parent's children (toolkit.go 132–136). -/
def parentTail : String :=
  "</parent>\n" ++ noteLine

/-- Everything `GetToolkitDescription` emits for one registered parent
(toolkit.go lines 116–136); both branches of the `len(children) > 0` test
close with the same `</parent>` line, so the block is uniform. -/
def parentBlock {Val : Type} (p : Parent Val) : String :=
  parentHeaderLine p
    ++ strJoin (p.children.map (fun e => childBlock e.2))
    ++ parentTail

/-- The fixed prologue of the description (toolkit.go lines 111–113). -/
def descHeader (name : String) : String :=
  "In this environment, you have access to the following <toolkit name="
      ++ quoteStr name ++ ">:\n"
    ++ "A <toolkit> is a collection of <parents>, a <parent> is a collection of <childs>.\n"
    ++ "Below is the list of available <parents> and their <childs>:\n"

/-- `GetToolkitDescription` (toolkit.go): prologue, then one block per
registry entry in iteration order, then the closing tag. -/
def GetToolkitDescription {Val : Type} (t : Toolkit Val) : String :=
  descHeader (GetToolkitName t)
    ++ strJoin (t.parents.map (fun e => parentBlock e.2))
    ++ "</toolkit>"

/-- The sequence of parent names the description enumerates, in emission
order (each block opens with its parent's name). -/
def manifestParentNames {Val : Type} (t : Toolkit Val) : List String :=
  t.parents.map (fun e => e.2.name)

/-- Lexicographic comparison on character lists (kernel-reducible). -/
def charListLe : List Char → List Char → Bool
  | [], _ => true
  | _ :: _, [] => false
  | a :: as, b :: bs => if a = b then charListLe as bs else decide (a < b)

/-- Lexicographic string comparison (kernel-reducible). -/
def strLeB (a b : String) : Bool :=
  charListLe a.data b.data

/-- Whether a list of names is in ascending lexicographic order. -/
def sortedByName : List String → Bool
  | [] => true
  | [_] => true
  | a :: b :: rest => strLeB a b && sortedByName (b :: rest)

/-- `small` occurs as a contiguous substring of `big`. -/
def containsStr (big small : String) : Prop :=
  ∃ s₁ s₂, big = s₁ ++ small ++ s₂

/-! ### Helper lemmas -/

theorem strAppend_assoc (a b c : String) : a ++ b ++ c = a ++ (b ++ c) :=
  String.ext (by simp [String.data_append, List.append_assoc])

theorem strEmpty_append (s : String) : "" ++ s = s :=
  String.ext (by simp [String.data_append])

theorem strJoin_append (l₁ l₂ : List String) :
    strJoin (l₁ ++ l₂) = strJoin l₁ ++ strJoin l₂ := by
  induction l₁ with
  | nil => simp [strJoin, strEmpty_append]
  | cons s rest ih => simp [strJoin, ih, strAppend_assoc]

theorem strJoin_mem_split {l : List String} {s : String} (h : s ∈ l) :
    ∃ s₁ s₂, strJoin l = s₁ ++ s ++ s₂ := by
  obtain ⟨l₁, l₂, rfl⟩ := List.append_of_mem h
  refine ⟨strJoin l₁, strJoin l₂, ?_⟩
  rw [strJoin_append]
  simp [strJoin, strAppend_assoc]

theorem containsStr_wrap {mid small : String} (pre post : String)
    (h : containsStr mid small) : containsStr (pre ++ mid ++ post) small := by
  obtain ⟨a, b, rfl⟩ := h
  exact ⟨pre ++ a, b ++ post, by simp [strAppend_assoc]⟩

theorem mapLookup_mapInsert {α : Type} (m : List (String × α)) (k n : String) (v : α) :
    mapLookup (mapInsert m k v) n = if k = n then some v else mapLookup m n := by
  induction m with
  | nil => simp [mapInsert, mapLookup]
  | cons e rest ih =>
    obtain ⟨k₁, v₁⟩ := e
    by_cases h : k₁ = k
    · subst h
      by_cases hn : k₁ = n <;> simp [mapInsert, mapLookup, hn]
    · by_cases hn : k₁ = n
      · subst hn
        have : ¬ k = k₁ := fun hc => h hc.symm
        simp [mapInsert, mapLookup, h, this]
      · simp [mapInsert, mapLookup, h, hn, ih]

theorem mapInsert_of_fresh {α : Type} {m : List (String × α)} {k : String} (v : α)
    (h : k ∉ m.map Prod.fst) : mapInsert m k v = m ++ [(k, v)] := by
  induction m with
  | nil => simp [mapInsert]
  | cons e rest ih =>
    obtain ⟨k₁, v₁⟩ := e
    simp only [List.map_cons, List.mem_cons] at h
    push_neg at h
    have hne : k₁ ≠ k := fun hc => h.1 hc.symm
    simp [mapInsert, hne, ih h.2]

/-- Folding `mapInsert` over entries with distinct keys, all fresh for the
accumulator, appends the entries in order. -/
theorem foldInsert_eq_append {β : Type} (key : β → String) (cs : List β) :
    ∀ m : List (String × β), (cs.map key).Nodup →
      (∀ c ∈ cs, key c ∉ m.map Prod.fst) →
      cs.foldl (fun m c => mapInsert m (key c) c) m = m ++ cs.map (fun c => (key c, c)) := by
  induction cs with
  | nil => intro m _ _; simp
  | cons c rest ih =>
    intro m hnd hfresh
    simp only [List.map_cons, List.nodup_cons] at hnd
    rw [List.foldl_cons, mapInsert_of_fresh c (hfresh c (by simp))]
    rw [ih (m ++ [(key c, c)]) hnd.2 ?_]
    · simp
    · intro d hd
      simp only [List.map_append, List.mem_append, List.map_cons]
      rintro (hmem | hkc)
      · exact hfresh d (by simp [hd]) hmem
      · simp only [List.map_nil, List.mem_singleton] at hkc
        exact hnd.1 (hkc ▸ (List.mem_map_of_mem key hd))

/-- Looking up after folding registrations finds the last registration with
that name, falling back to the accumulator. -/
theorem foldInsert_lookup {β : Type} (key : β → String) (cs : List β) (n : String) :
    ∀ m : List (String × β),
      mapLookup (cs.foldl (fun m c => mapInsert m (key c) c) m) n
        = (cs.reverse.find? (fun c => key c == n)).or (mapLookup m n) := by
  induction cs with
  | nil => simp
  | cons c rest ih =>
    intro m
    rw [List.foldl_cons, ih, List.reverse_cons, List.find?_append, Option.or_assoc]
    congr 1
    rw [mapLookup_mapInsert]
    by_cases h : key c = n
    · simp [List.find?_cons, h]
    · simp [List.find?_cons, h]

/-- Registering a list of options folds exactly like registering the
non-nil entries. -/
theorem foldRegister_filterMap {Val : Type} (ops : List (Option (Parent Val))) :
    ∀ m : List (String × Parent Val),
      ops.foldl (fun m op =>
          match op with
          | none => m
          | some p => mapInsert m p.name p) m
        = (ops.filterMap id).foldl (fun m p => mapInsert m p.name p) m := by
  induction ops with
  | nil => intro m; simp
  | cons op rest ih =>
    intro m
    cases op with
    | none => simpa [List.filterMap_cons] using ih m
    | some p => simpa [List.filterMap_cons] using ih (mapInsert m p.name p)

/-- Lookup in a `New`-built registry finds the last non-nil registration
bearing the requested name. -/
theorem new_lookup {Val : Type} (nm : String) (ops : List (Option (Parent Val)))
    (n : String) :
    mapLookup (New nm ops).parents n
      = (ops.filterMap id).reverse.find? (fun p => Parent.name p == n) := by
  show mapLookup (ops.foldl _ []) n = _
  rw [foldRegister_filterMap, foldInsert_lookup (fun p => Parent.name p)]
  simp [mapLookup]

/-- Registry invariant: a parent found under a key carries that key as its
name (`New` only ever registers a parent under its own name). -/
theorem new_lookup_name {Val : Type} {nm n : String}
    {ops : List (Option (Parent Val))} {p : Parent Val}
    (h : mapLookup (New nm ops).parents n = some p) : Parent.name p = n := by
  rw [new_lookup] at h
  simpa using List.find?_some h

/-- A `New`-built registry over distinctly-named parents holds exactly those
parents, keyed by name, in registration order. -/
theorem new_parents_of_nodup {Val : Type} (nm : String) (ps : List (Parent Val))
    (hnd : (ps.map (fun p => Parent.name p)).Nodup) :
    (New nm (ps.map some)).parents = ps.map (fun p => (p.name, p)) := by
  show (ps.map some).foldl _ [] = _
  rw [List.foldl_map]
  simpa using foldInsert_eq_append (fun p => Parent.name p) ps [] hnd (by simp)

/-- A `NewParent`-built child map over distinctly-named childs holds exactly
those childs, keyed by name, in registration order. -/
theorem newParent_children_of_nodup {Val : Type} (pn pd : String)
    (cs : List (Child Val)) (hnd : (cs.map (fun c => Child.name c)).Nodup) :
    (NewParent pn pd cs).children = cs.map (fun c => (c.name, c)) := by
  show cs.foldl _ [] = _
  simpa using foldInsert_eq_append (fun c => Child.name c) cs [] hnd (by simp)

/-- Category dispatch records every child response under the requested name,
on the found, not-found, success and failure paths alike. -/
theorem dispatchChild_name {Val : Type} (p : Parent Val) (req : ToolKitChild) :
    (dispatchChild p req).name = req.name := by
  unfold dispatchChild
  split
  · rfl
  · split <;> rfl

/-- `processToolKit` stamps the toolkit's registered name on the response on
both of its paths. -/
theorem processToolKit_name {Val : Type} (t : Toolkit Val) (req : ToolKit) :
    (processToolKit t req).1.name = GetToolkitName t := by
  unfold processToolKit
  split <;> rfl

/-! ### Concrete fixtures (mirroring the repository's test data) -/

/-- A decoder that accepts the fixed payload `GOOD` as the given request,
standing in for `json.Unmarshal` in concrete scenarios. -/
def parseReq (req : ToolKit) : String → Except String ToolKit :=
  fun s => if s = "GOOD" then Except.ok req else Except.error "unexpected end of JSON input"

/-- A decoder that rejects every payload (scenario B's malformed JSON). -/
def parseFailAll : String → Except String ToolKit :=
  fun _ => Except.error "unexpected end of JSON input"

/-- Argument shape of the tests' `testArgs` struct: one required field, with a
decoder that rejects the fixed payload `BAD` (the type-mismatch payload). -/
def echoShape : ArgShape String :=
  { fields := [{ name := "val", required := true, description := "the value" }]
  , decode := fun s =>
      if s = "BAD" then Except.error "cannot unmarshal payload into args" else Except.ok s }

def childOkA : Child String :=
  NewChild "c1a" "desc_c1a" echoShape (fun s => Except.ok ("r1a:" ++ s))

def childOkB : Child String :=
  NewChild "c1b" "desc_c1b" echoShape (fun s => Except.ok ("r1b:" ++ s))

def childErr : Child String :=
  NewChild "cerr" "desc_cerr" echoShape (fun _ => Except.error "child_err_cerr")

def parent1S : Parent String :=
  NewParent "parent1" "desc_parent1" [childOkA, childOkB, childErr]

def tkS : Toolkit String :=
  New "test_tk" [some parent1S]

def reqGood : ToolKit :=
  { name := "toolkit"
  , parents := [{ name := "parent1", childs := [⟨"c1b", "v1b"⟩, ⟨"c1a", "v1a"⟩] }] }

def reqGhost : ToolKit :=
  { name := "toolkit", parents := [{ name := "ghost", childs := [] }] }

def reqEmpty : ToolKit :=
  { name := "toolkit", parents := [] }

/-! ### Claim theorems -/

/-- C3: every input payload that fails to decode makes `HandleToolKit` return
both a non-nil error and the degenerate response with exactly one parent-entry
holding exactly one child-entry whose response is the structured error
`invalid_input_json`; no category or tool dispatch happens — the outcome is
independent of the toolkit the handler was invoked on. -/
theorem c3_parse_failure_degenerate {Val : Type}
    (parse : String → Except String ToolKit) (t t' : Toolkit Val)
    (input e : String) (h : parse input = Except.error e) :
    HandleToolKit parse t input
      = ({ name := "toolkit_request_parse_error"
         , responses :=
             [{ name := "_parse_error"
              , childsResponses :=
                  [{ name := "_input_error"
                   , response := ChildResult.err (NewError "invalid_input_json"
                       ("error unmarshaling toolkit JSON input: " ++ e)) }] }] },
         some (GoError.parseErr ("error unmarshaling toolkit JSON input: " ++ e)))
    ∧ (HandleToolKit parse t input).2 ≠ none
    ∧ HandleToolKit parse t input = HandleToolKit parse t' input := by
  refine ⟨?_, ?_, ?_⟩ <;> simp [HandleToolKit, h]

/-- C3 witness: the malformed-payload scenario at a concrete decoder, payload
and pair of toolkits. -/
theorem c3_witness :
    (HandleToolKit parseFailAll (New "tkA" ([] : List (Option (Parent String)))) "x").2 ≠ none
    ∧ HandleToolKit parseFailAll (New "tkA" ([] : List (Option (Parent String)))) "x"
        = HandleToolKit parseFailAll (New "tkB" []) "x" :=
  ⟨(c3_parse_failure_degenerate parseFailAll (New "tkA" []) (New "tkB" []) "x"
      "unexpected end of JSON input" rfl).2.1,
   (c3_parse_failure_degenerate parseFailAll (New "tkA" []) (New "tkB" []) "x"
      "unexpected end of JSON input" rfl).2.2⟩

/-- C4: a decoded request with zero parents makes `HandleToolKit` return the
structured error `no_toolkit_parents` as the call-level error, with a response
carrying the toolkit name and no parent-entries. -/
theorem c4_no_parents {Val : Type} (parse : String → Except String ToolKit)
    (t : Toolkit Val) (input : String) (req : ToolKit)
    (hparse : parse input = Except.ok req) (hempty : req.parents = []) :
    HandleToolKit parse t input
      = ({ name := GetToolkitName t, responses := [] },
         some (GoError.tkErr (NewError "no_toolkit_parents"
           "No toolkit parents specified in the request"))) := by
  simp [HandleToolKit, hparse, processToolKit, hempty]

/-- C4 witness: the zero-parents scenario at a concrete decoder and toolkit. -/
theorem c4_witness :
    HandleToolKit (parseReq reqEmpty) tkS "GOOD"
      = ({ name := "test_tk", responses := [] },
         some (GoError.tkErr (NewError "no_toolkit_parents"
           "No toolkit parents specified in the request"))) :=
  c4_no_parents (parseReq reqEmpty) tkS "GOOD" reqEmpty rfl rfl

/-- C10: on the decode-failure path the response's top-level name is the fixed
literal `toolkit_request_parse_error` with synthetic parent and child slots
named `_parse_error` and `_input_error`; on every successfully-decoded path
the response's top-level name is the toolkit's registered name. -/
theorem c10_response_names {Val : Type} (parse : String → Except String ToolKit)
    (t : Toolkit Val) (in₁ in₂ e : String) (req : ToolKit)
    (h₁ : parse in₁ = Except.error e) (h₂ : parse in₂ = Except.ok req) :
    ((HandleToolKit parse t in₁).1.name = "toolkit_request_parse_error"
     ∧ (HandleToolKit parse t in₁).1.responses.map (fun r => ParentResponse.name r)
         = ["_parse_error"]
     ∧ (HandleToolKit parse t in₁).1.responses.map
           (fun r => r.childsResponses.map (fun c => ChildResponse.name c))
         = [["_input_error"]])
    ∧ (HandleToolKit parse t in₂).1.name = GetToolkitName t := by
  refine ⟨⟨?_, ?_, ?_⟩, ?_⟩
  · simp [HandleToolKit, h₁]
  · simp [HandleToolKit, h₁]
  · simp [HandleToolKit, h₁]
  · simp only [HandleToolKit, h₂]
    exact processToolKit_name t req

/-- C10 witness: both paths at one concrete decoder, which fails on payload
`x` and accepts payload `GOOD`. -/
theorem c10_witness :
    (HandleToolKit (parseReq reqGood) tkS "x").1.name = "toolkit_request_parse_error"
    ∧ (HandleToolKit (parseReq reqGood) tkS "GOOD").1.name = GetToolkitName tkS :=
  ⟨(c10_response_names (parseReq reqGood) tkS "x" "GOOD"
      "unexpected end of JSON input" reqGood rfl rfl).1.1,
   (c10_response_names (parseReq reqGood) tkS "x" "GOOD"
      "unexpected end of JSON input" reqGood rfl rfl).2⟩

/-- C5: a decoded request naming an unregistered category yields a nil
call-level error; that category's position carries a parent-entry bearing the
requested name with a single child-entry holding `parent_not_found`; and every
listed category is still processed — the response has one entry per requested
category, each the result of resolving that category, with no short-circuit. -/
theorem c5_parent_not_found {Val : Type} (parse : String → Except String ToolKit)
    (t : Toolkit Val) (input : String) (req : ToolKit) (i : Nat)
    (hparse : parse input = Except.ok req) (hi : i < req.parents.length)
    (hghost : mapLookup t.parents (req.parents[i]).name = none) :
    (HandleToolKit parse t input).2 = none
    ∧ (HandleToolKit parse t input).1.responses.length = req.parents.length
    ∧ (HandleToolKit parse t input).1.responses[i]?
        = some { name := (req.parents[i]).name
               , childsResponses :=
                   [{ name := "_parent_error"
                    , response := ChildResult.err (NewError "parent_not_found"
                        ("Parent toolkit \x27" ++ (req.parents[i]).name
                          ++ "\x27 not registered")) }] }
    ∧ ∀ j : Nat, (HandleToolKit parse t input).1.responses[j]?
        = (req.parents[j]?).map (processParentReq t) := by
  have hne : req.parents.isEmpty = false := by
    cases hreq : req.parents with
    | nil => rw [hreq] at hi; simp at hi
    | cons a l => simp [hreq]
  refine ⟨?_, ?_, ?_, ?_⟩
  · simp [HandleToolKit, hparse, processToolKit, hne]
  · simp [HandleToolKit, hparse, processToolKit, hne]
  · simp only [HandleToolKit, hparse, processToolKit, hne, Bool.false_eq_true,
      if_false, List.getElem?_map, List.getElem?_eq_getElem hi]
    simp [processParentReq, hghost]
  · intro j
    simp [HandleToolKit, hparse, processToolKit, hne, List.getElem?_map]

/-- The concrete scenario-C request: an unregistered `ghost` category first,
then a registered category. -/
def reqGhostMix : ToolKit :=
  { name := "toolkit"
  , parents := [{ name := "ghost", childs := [] },
                { name := "parent1", childs := [⟨"c1a", "v1a"⟩] }] }

/-- C5 witness: scenario C at a concrete toolkit — nil call-level error, the
synthetic `ghost` entry in position, and the registered sibling category still
dispatched. -/
theorem c5_witness :
    (HandleToolKit (parseReq reqGhostMix) tkS "GOOD").2 = none
    ∧ (HandleToolKit (parseReq reqGhostMix) tkS "GOOD").1.responses[0]?
        = some { name := "ghost"
               , childsResponses :=
                   [{ name := "_parent_error"
                    , response := ChildResult.err (NewError "parent_not_found"
                        "Parent toolkit \x27ghost\x27 not registered") }] }
    ∧ (HandleToolKit (parseReq reqGhostMix) tkS "GOOD").1.responses[1]?
        = some { name := "parent1"
               , childsResponses := [{ name := "c1a", response := ChildResult.ok "r1a:v1a" }] } :=
  ⟨(c5_parent_not_found (parseReq reqGhostMix) tkS "GOOD" reqGhostMix 0
      rfl (by decide) rfl).1,
   (c5_parent_not_found (parseReq reqGhostMix) tkS "GOOD" reqGhostMix 0
      rfl (by decide) rfl).2.2.1,
   ((c5_parent_not_found (parseReq reqGhostMix) tkS "GOOD" reqGhostMix 0
      rfl (by decide) rfl).2.2.2 1).trans rfl⟩

/-- C6: every tool built by `NewChild` fails with structured error code
`invalid_arguments` on any argument payload its decoder rejects, and the bound
handler is never called — the outcome is identical whatever handler was bound.
(Which payloads the external JSON codec rejects — malformed JSON, type
mismatch — is decided outside the repository.) -/
theorem c6_invalid_arguments {A Val : Type} (name description : String)
    (shape : ArgShape A) (h₁ h₂ : A → Except String Val) (raw e : String)
    (hdec : shape.decode raw = Except.error e) :
    (NewChild name description shape h₁).handle raw
        = Except.error (NewError "invalid_arguments"
            ("failed to unmarshal args for child " ++ name ++ ": " ++ e))
    ∧ (NewChild name description shape h₁).handle raw
        = (NewChild name description shape h₂).handle raw := by
  constructor <;> simp [NewChild, hdec]

/-- C6 witness: the type-mismatch payload `BAD` against a concrete tool, with
a second handler showing the handler is irrelevant on this path. -/
theorem c6_witness :
    echoShape.decode "BAD" = Except.error "cannot unmarshal payload into args"
    ∧ childOkA.handle "BAD"
        = Except.error (NewError "invalid_arguments"
            ("failed to unmarshal args for child " ++ "c1a" ++ ": "
              ++ "cannot unmarshal payload into args"))
    ∧ childOkA.handle "BAD"
        = (NewChild "c1a" "desc_c1a" echoShape
            (fun _ => Except.ok "other")).handle "BAD" :=
  ⟨rfl,
   (c6_invalid_arguments "c1a" "desc_c1a" echoShape
      (fun s => Except.ok ("r1a:" ++ s)) (fun _ => Except.ok "other") "BAD"
      "cannot unmarshal payload into args" rfl).1,
   (c6_invalid_arguments "c1a" "desc_c1a" echoShape
      (fun s => Except.ok ("r1a:" ++ s)) (fun _ => Except.ok "other") "BAD"
      "cannot unmarshal payload into args" rfl).2⟩

/-- C7: when a tool's bound handler returns a failure, that tool's response
entry carries `handler_execution_error` with the handler's original error
message preserved, and every sibling in the same category request list is
still dispatched to its own result (one entry per request, no short-circuit). -/
theorem c7_handler_failure {A Val : Type} (p : Parent Val)
    (reqs : List ToolKitChild) (i : Nat) (hi : i < reqs.length)
    (cname cdesc : String) (shape : ArgShape A)
    (handler : A → Except String Val) (a : A) (msg : String)
    (hc : mapLookup p.children (reqs[i]).name
        = some (NewChild cname cdesc shape handler))
    (hdec : shape.decode (reqs[i]).args = Except.ok a)
    (hfail : handler a = Except.error msg) :
    (HandleChildren p reqs).childsResponses[i]?
        = some { name := (reqs[i]).name
               , response := ChildResult.err (NewError "handler_execution_error" msg) }
    ∧ (HandleChildren p reqs).childsResponses.length = reqs.length
    ∧ ∀ j : Nat, (HandleChildren p reqs).childsResponses[j]?
        = (reqs[j]?).map (dispatchChild p) := by
  refine ⟨?_, ?_, ?_⟩
  · simp only [HandleChildren, List.getElem?_map, List.getElem?_eq_getElem hi]
    simp [dispatchChild, hc, NewChild, hdec, hfail]
  · simp [HandleChildren]
  · intro j
    simp [HandleChildren, List.getElem?_map]

/-- C7 witness: scenario D at a concrete category — the failing tool's entry
carries the wrapped handler message verbatim, and its successful sibling's
entry carries the handler result. -/
theorem c7_witness :
    (HandleChildren parent1S [⟨"c1a", "v"⟩, ⟨"cerr", "w"⟩]).childsResponses[1]?
        = some { name := "cerr"
               , response := ChildResult.err (NewError "handler_execution_error" "child_err_cerr") }
    ∧ (HandleChildren parent1S [⟨"c1a", "v"⟩, ⟨"cerr", "w"⟩]).childsResponses.length = 2
    ∧ (HandleChildren parent1S [⟨"c1a", "v"⟩, ⟨"cerr", "w"⟩]).childsResponses[0]?
        = some { name := "c1a", response := ChildResult.ok "r1a:v" } :=
  ⟨(c7_handler_failure parent1S [⟨"c1a", "v"⟩, ⟨"cerr", "w"⟩] 1
      (by decide) "cerr" "desc_cerr" echoShape (fun _ => Except.error "child_err_cerr")
      "w" "child_err_cerr" rfl rfl rfl).1,
   (c7_handler_failure parent1S [⟨"c1a", "v"⟩, ⟨"cerr", "w"⟩] 1
      (by decide) "cerr" "desc_cerr" echoShape (fun _ => Except.error "child_err_cerr")
      "w" "child_err_cerr" rfl rfl rfl).2.1,
   ((c7_handler_failure parent1S [⟨"c1a", "v"⟩, ⟨"cerr", "w"⟩] 1
      (by decide) "cerr" "desc_cerr" echoShape (fun _ => Except.error "child_err_cerr")
      "w" "child_err_cerr" rfl rfl rfl).2.2 0).trans rfl⟩

/-- Resolving one registered category mirrors its request list: the entry
bears the category's name and holds one child entry per requested tool, in
order, under the requested names. -/
theorem processParentReq_mirrors {Val : Type} (t : Toolkit Val) (pr : ToolKitParent)
    (hkey : ∀ n p, mapLookup t.parents n = some p → Parent.name p = n)
    (h : (mapLookup t.parents pr.name).isSome = true) :
    (processParentReq t pr).name = pr.name
    ∧ (processParentReq t pr).childsResponses.length = pr.childs.length
    ∧ List.Forall₂ (fun (cres : ChildResponse Val) (creq : ToolKitChild) =>
        cres.name = creq.name) (processParentReq t pr).childsResponses pr.childs := by
  obtain ⟨p, hp⟩ := Option.isSome_iff_exists.mp h
  refine ⟨?_, ?_, ?_⟩
  · simp [processParentReq, hp, HandleChildren, hkey pr.name p hp]
  · simp [processParentReq, hp, HandleChildren]
  · simp only [processParentReq, hp, HandleChildren]
    rw [List.forall₂_map_left_iff]
    rw [List.forall₂_same]
    intro creq _
    exact dispatchChild_name p creq

/-- C1 counterexample: the claim as stated fails on a request naming an
unregistered category — scenario C's request lists one category with zero
tools, yet the response's parent-entry holds one (synthetic) child-entry, so
the per-category child-entry counts do not match the request. -/
theorem c1_counterexample :
    ((HandleToolKit (parseReq reqGhost) tkS "GOOD").1.responses.map
        (fun r => r.childsResponses.length)) = [1]
    ∧ reqGhost.parents.map (fun p => p.childs.length) = [0]
    ∧ ¬ (((HandleToolKit (parseReq reqGhost) tkS "GOOD").1.responses.map
          (fun r => r.childsResponses.length))
        = reqGhost.parents.map (fun p => p.childs.length)) := by
  decide

/-- C1 (amended): provided every requested category is registered, the
response contains exactly one parent-entry per requested category, in request
order and bearing the requested names, and each parent-entry contains exactly
one child-entry per tool requested under that category, in request order and
bearing the requested names.  (Without the registration proviso the count
clause fails — see the counterexample.) -/
theorem c1_mirrors_request {Val : Type} (parse : String → Except String ToolKit)
    (t : Toolkit Val) (input : String) (req : ToolKit)
    (hparse : parse input = Except.ok req)
    (hkey : ∀ n p, mapLookup t.parents n = some p → Parent.name p = n)
    (hreg : ∀ pr ∈ req.parents, (mapLookup t.parents pr.name).isSome = true) :
    (HandleToolKit parse t input).1.responses.length = req.parents.length
    ∧ List.Forall₂
        (fun (pres : ParentResponse Val) (preq : ToolKitParent) =>
          pres.name = preq.name
          ∧ pres.childsResponses.length = preq.childs.length
          ∧ List.Forall₂ (fun (cres : ChildResponse Val) (creq : ToolKitChild) =>
              cres.name = creq.name) pres.childsResponses preq.childs)
        (HandleToolKit parse t input).1.responses req.parents := by
  have hmain : List.Forall₂
      (fun (pres : ParentResponse Val) (preq : ToolKitParent) =>
        pres.name = preq.name
        ∧ pres.childsResponses.length = preq.childs.length
        ∧ List.Forall₂ (fun (cres : ChildResponse Val) (creq : ToolKitChild) =>
            cres.name = creq.name) pres.childsResponses preq.childs)
      (HandleToolKit parse t input).1.responses req.parents := by
    by_cases hemp : req.parents.isEmpty = true
    · rw [List.isEmpty_iff] at hemp
      simp [HandleToolKit, hparse, processToolKit, hemp]
    · simp only [HandleToolKit, hparse, processToolKit, hemp, Bool.false_eq_true,
        if_false]
      rw [List.forall₂_map_left_iff, List.forall₂_same]
      intro pr hpr
      exact processParentReq_mirrors t pr hkey (hreg pr hpr)
  exact ⟨hmain.length_eq, hmain⟩

/-- The concrete registry satisfies the key-is-name invariant. -/
theorem tkS_lookup_name : ∀ n p, mapLookup tkS.parents n = some p → Parent.name p = n :=
  fun _ _ h => new_lookup_name h

/-- C1 witness: scenario A's shape — a registered category with two tools
requested in a chosen order — satisfies the amended theorem's hypotheses. -/
theorem c1_witness :
    (HandleToolKit (parseReq reqGood) tkS "GOOD").1.responses.length
      = reqGood.parents.length :=
  (c1_mirrors_request (parseReq reqGood) tkS "GOOD" reqGood rfl
    tkS_lookup_name
    (by
      intro pr hpr
      simp only [reqGood, List.mem_singleton] at hpr
      subst hpr
      rfl)).1

/-- Non-nil registrations are all that matter to the fold. -/
theorem filterMap_id_map_some {α : Type} (l : List α) :
    (l.map some).filterMap id = l := by
  rw [List.filterMap_map]
  simp [Function.comp]

/-- C8: toolkit construction is total — `New` returns a registry for every
input list.  Nil entries are skipped (registration over the list with the nil
entries removed builds the identical toolkit), the requested name is kept, and
when several entries share a name the last registration wins: looking a name
up finds the most recently registered parent bearing it. -/
theorem c8_new_registration {Val : Type} (nm : String)
    (ops : List (Option (Parent Val))) :
    New nm ops = New nm ((ops.filterMap id).map some)
    ∧ GetToolkitName (New nm ops) = nm
    ∧ ∀ n, mapLookup (New nm ops).parents n
        = (ops.filterMap id).reverse.find? (fun p => Parent.name p == n) := by
  refine ⟨?_, rfl, new_lookup nm ops⟩
  show Toolkit.mk _ nm = Toolkit.mk _ nm
  congr 1
  rw [foldRegister_filterMap, foldRegister_filterMap, filterMap_id_map_some]

/-- Two empty-registry parents used to exhibit enumeration order. -/
def parentAlpha : Parent Unit :=
  { name := "alpha", description := "da", children := [] }

def parentBeta : Parent Unit :=
  { name := "beta", description := "db", children := [] }

/-- The same two parents registered in the two possible orders: as Go maps
the registries are indistinguishable, but the iteration lists differ. -/
def tkBA : Toolkit Unit :=
  New "tk" [some parentBeta, some parentAlpha]

def tkAB : Toolkit Unit :=
  New "tk" [some parentAlpha, some parentBeta]

set_option maxRecDepth 4096 in
/-- C2 counterexample: the manifest is neither sorted by name nor determined
by the registry's map contents.  Registering `beta` then `alpha` enumerates
`beta` first (not sorted), and the two registration orders — identical as
maps, as the lookups show — produce different manifest strings, so the output
depends on the unspecified iteration order. -/
theorem c2_counterexample :
    manifestParentNames tkBA = ["beta", "alpha"]
    ∧ sortedByName (manifestParentNames tkBA) = false
    ∧ sortedByName ["alpha", "beta"] = true
    ∧ GetToolkitDescription tkBA ≠ GetToolkitDescription tkAB
    ∧ mapLookup tkBA.parents "alpha" = some parentAlpha
    ∧ mapLookup tkAB.parents "alpha" = some parentAlpha
    ∧ mapLookup tkBA.parents "beta" = some parentBeta
    ∧ mapLookup tkAB.parents "beta" = some parentBeta :=
  ⟨by decide, by decide, by decide, by decide, rfl, rfl, rfl, rfl⟩

/-- C2 (amended): the manifest enumerates parents in the registry's iteration
order — registration order here, unspecified for a Go map — and the children
of a built category in their registration order; no sorting by name is
applied. -/
theorem c2_enumeration_order {Val : Type} (nm : String) (ps : List (Parent Val))
    (hnd : (ps.map (fun p => Parent.name p)).Nodup)
    (pn pd : String) (cs : List (Child Val))
    (hcd : (cs.map (fun c => Child.name c)).Nodup) :
    manifestParentNames (New nm (ps.map some)) = ps.map (fun p => Parent.name p)
    ∧ (NewParent pn pd cs).children.map (fun e => e.2.name)
        = cs.map (fun c => Child.name c) := by
  constructor
  · unfold manifestParentNames
    rw [new_parents_of_nodup nm ps hnd]
    simp
  · rw [newParent_children_of_nodup pn pd cs hcd]
    simp

/-- C2 witness: the amended enumeration at the concrete two-parent registry. -/
theorem c2_witness :
    manifestParentNames tkBA = [parentBeta.name, parentAlpha.name]
    ∧ (NewParent "p" "dp" ([] : List (Child Unit))).children.map (fun e => e.2.name)
        = [] :=
  ⟨(c2_enumeration_order "tk" [parentBeta, parentAlpha] (by decide)
      "p" "dp" [] (by decide)).1,
   (c2_enumeration_order "tk" [parentBeta, parentAlpha] (by decide)
      "p" "dp" [] (by decide)).2⟩

theorem containsStr_trans {a b c : String} (h₁ : containsStr a b)
    (h₂ : containsStr b c) : containsStr a c := by
  obtain ⟨x, y, rfl⟩ := h₁
  obtain ⟨u, v, h⟩ := h₂
  refine ⟨x ++ u, v ++ y, ?_⟩
  rw [h]
  simp [strAppend_assoc]

/-- Every child of a parent contributes its block — schema inlined — to that
parent's block of the description. -/
theorem parentBlock_contains_child {Val : Type} (p : Parent Val)
    (e : String × Child Val) (he : e ∈ p.children) :
    containsStr (parentBlock p) (childBlock e.2) := by
  have hmem : childBlock e.2 ∈ p.children.map (fun e => childBlock e.2) :=
    List.mem_map_of_mem _ he
  obtain ⟨a, b, h⟩ := strJoin_mem_split hmem
  refine ⟨parentHeaderLine p ++ a, b ++ parentTail, ?_⟩
  unfold parentBlock
  rw [h]
  simp [strAppend_assoc]

/-- Every registry entry contributes its parent block to the description,
children or none. -/
theorem description_contains_parentBlock {Val : Type} (t : Toolkit Val)
    (en : String × Parent Val) (he : en ∈ t.parents) :
    containsStr (GetToolkitDescription t) (parentBlock en.2) := by
  have hmem : parentBlock en.2 ∈ t.parents.map (fun e => parentBlock e.2) :=
    List.mem_map_of_mem _ he
  obtain ⟨a, b, h⟩ := strJoin_mem_split hmem
  refine ⟨descHeader (GetToolkitName t) ++ a, b ++ "</toolkit>", ?_⟩
  unfold GetToolkitDescription
  rw [h]
  simp [strAppend_assoc]

/-- C9: the manifest of a registry over distinctly-named parents enumerates
every registered parent name exactly once; every registered parent — with or
without children — contributes its block to the manifest text; every child of
a registered parent contributes its block (which inlines its cached schema);
a category built over distinctly-named childs enumerates each child name
exactly once; and the schema cached by `NewChild` declares as required
exactly the fields annotated required in its argument shape. -/
theorem c9_manifest_round_trip (A : Type) {Val : Type} (nm : String) (ps : List (Parent Val))
    (hnd : (ps.map (fun p => Parent.name p)).Nodup) :
    (∀ p ∈ ps, (manifestParentNames (New nm (ps.map some))).count p.name = 1)
    ∧ (∀ p ∈ ps,
        containsStr (GetToolkitDescription (New nm (ps.map some))) (parentBlock p))
    ∧ (∀ p ∈ ps, ∀ e ∈ p.children,
        containsStr (GetToolkitDescription (New nm (ps.map some))) (childBlock e.2))
    ∧ (∀ (pn pd : String) (cs : List (Child Val)),
        (cs.map (fun c => Child.name c)).Nodup →
        (NewParent pn pd cs).children.map (fun e => e.2.name)
          = cs.map (fun c => Child.name c))
    ∧ (∀ (cn cd : String) (shape : ArgShape A) (handler : A → Except String Val),
        (NewChild cn cd shape handler).inputSchema.required
          = (shape.fields.filter (fun f => f.required)).map (fun f => f.name)) := by
  have hreg := new_parents_of_nodup nm ps hnd
  refine ⟨?_, ?_, ?_, ?_, ?_⟩
  · intro p hp
    have hnames : manifestParentNames (New nm (ps.map some))
        = ps.map (fun p => Parent.name p) := by
      unfold manifestParentNames
      rw [hreg]
      simp
    rw [hnames]
    exact List.count_eq_one_of_mem hnd (List.mem_map_of_mem _ hp)
  · intro p hp
    refine description_contains_parentBlock _ (p.name, p) ?_
    rw [hreg]
    exact List.mem_map_of_mem _ hp
  · intro p hp e he
    refine containsStr_trans (description_contains_parentBlock _ (p.name, p) ?_)
      (parentBlock_contains_child p e he)
    rw [hreg]
    exact List.mem_map_of_mem _ hp
  · intro pn pd cs hcd
    rw [newParent_children_of_nodup pn pd cs hcd]
    simp
  · intro cn cd shape handler
    rfl

/-- A trivial argument shape over `Unit` with one required annotated field. -/
def unitShape : ArgShape Unit :=
  { fields := [{ name := "val", required := true, description := "the value" }]
  , decode := fun _ => Except.ok () }

def childU : Child Unit :=
  NewChild "cu" "desc_cu" unitShape (fun _ => Except.ok ())

def parentU1 : Parent Unit :=
  NewParent "p1" "desc_p1" [childU]

def parentEmptyP : Parent Unit :=
  NewParent "emptyP" "desc_emptyP" []

/-- C9 witness: a concrete registry holding one one-child parent and one
empty parent — the parent name is enumerated once, the empty parent still
emits its block, and the one-required-field schema declares exactly `val`. -/
theorem c9_witness :
    (manifestParentNames (New "tk" ([parentU1, parentEmptyP].map some))).count
        parentU1.name = 1
    ∧ containsStr (GetToolkitDescription (New "tk" ([parentU1, parentEmptyP].map some)))
        (parentBlock parentEmptyP)
    ∧ (NewChild "cu" "desc_cu" unitShape
        (fun _ => Except.ok ())).inputSchema.required = ["val"] :=
  ⟨(c9_manifest_round_trip Unit "tk" [parentU1, parentEmptyP]
      (by decide)).1 parentU1 (by simp),
   (c9_manifest_round_trip Unit "tk" [parentU1, parentEmptyP]
      (by decide)).2.1 parentEmptyP (by simp),
   ((c9_manifest_round_trip Unit "tk" [parentU1, parentEmptyP]
      (by decide)).2.2.2.2 "cu" "desc_cu" unitShape (fun _ => Except.ok ())).trans rfl⟩

end AIToolkit
